import Mathlib

/-!
Verification of the conformance-report generator (reporting.py).

The Python module walks an ordered catalog of test groups and test cases,
loads one TOML result record per (case, tool) pair, classifies each record
into a verdict, accumulates per-tool summary statistics, and emits the HTML
fragments of a detail table and a summary table.

The shallow embedding below mirrors generate_summary_html line by line:
Python strings are Lean Strings, TOML records are structures of optional
string fields, the file system is a function from names to a FileState
(missing, malformed, or parsed), the summary_stats dict is a function from
tool name to SummaryStats, and the summary_html list of appended fragments
is an explicitly threaded list of strings.  Reads that Python protects with
try/except are modelled by the three read-site functions versionHeaderRead,
caseResultRead and versionSummaryRead; an uncaught exception is an
Except.error result, which aborts the run.
-/

namespace ConformanceReport

/-- Python str.strip strips these ASCII whitespace characters (the Unicode
whitespace that Python additionally strips is not needed by any record in
scope and is left out of the model). -/
def pyIsSpace (c : Char) : Bool :=
  c = ' ' || c = '\t' || c = '\n' || c = '\r' || c = '\x0b' || c = '\x0c'

/-- Python str.strip: remove leading and trailing whitespace. -/
def pyStrip (s : String) : String :=
  String.mk (((s.data.dropWhile pyIsSpace).reverse.dropWhile pyIsSpace).reverse)

/-- Python list.split for a single separator character; "".split gives [""]. -/
def splitOnChar (c : Char) : List Char → List (List Char)
  | [] => [[]]
  | x :: xs =>
    let r := splitOnChar c xs
    if x = c then [] :: r
    else
      match r with
      | [] => [[x]]
      | y :: ys => (x :: y) :: ys

/-- Python s.split on a newline. -/
def pySplitNl (s : String) : List String :=
  (splitOnChar '\n' s.data).map String.mk

/-- Whether the character list needle occurs inside hay (Python: needle in hay). -/
def listContainsSub (needle : List Char) : List Char → Bool
  | [] => needle.isPrefixOf []
  | x :: xs => needle.isPrefixOf (x :: xs) || listContainsSub needle xs

/-- Python substring test: needle in hay. -/
def strContains (hay needle : String) : Bool :=
  listContainsSub needle.data hay.data

/-- Python "".join of a list of strings. -/
def concatStrings : List String → String
  | [] => ""
  | x :: xs => x ++ concatStrings xs

/-- Python sep.join of a list of strings. -/
def joinSep (sep : String) : List String → String
  | [] => ""
  | [x] => x
  | x :: y :: xs => x ++ sep ++ joinSep sep (y :: xs)

/-- Python s.replace of a newline by a break tag (split on the newline and
rejoin with the replacement). -/
def pyReplaceNl (s : String) : String :=
  joinSep "<br>" (pySplitNl s)

/-- The state of one file on disk, as the record reads observe it. -/
inductive FileState (α : Type) where
  | missing : FileState α
  | malformed : FileState α
  | parsed : α → FileState α
deriving DecidableEq

/-- The recognized fields of a per-case TOML result record; an absent field
is none.  Python reads them with dict.get. -/
structure CaseRecord where
  conformant : Option String
  conformance_automated : Option String
  notes : Option String
  errors_diff : Option String
deriving DecidableEq

/-- The record a missing result file degrades to: an empty mapping. -/
def emptyCaseRecord : CaseRecord := ⟨none, none, none, none⟩

/-- The recognized field of a per-tool version TOML record. -/
structure VersionRecord where
  version : Option String
deriving DecidableEq

/-- A registered type checker (TYPE_CHECKERS entry): its stable name. -/
structure TypeChecker where
  name : String
deriving DecidableEq

/-- A test group from the catalog: display name and link target. -/
structure TestGroup where
  name : String
  href : String
deriving DecidableEq

/-- A test case from the catalog: the name used for group matching and the
stem used for file lookup and display. -/
structure TestCase where
  name : String
  stem : String
deriving DecidableEq

/-- The four per-tool counters of summary_stats, zero-initialized. -/
structure SummaryStats where
  passes : Nat
  partialCount : Nat
  false_positives : Nat
  false_negatives : Nat
deriving DecidableEq

/-- The outcome of one guarded tomli.load call: the diagnostics printed and
either the resulting record or the uncaught exception aborting the run. -/
structure TomlRead (α : Type) where
  diagnostics : List String
  outcome : Except String α

/-- Lines 49-56: the header loop reads version.toml catching both
FileNotFoundError (silently) and TOMLDecodeError (printing a diagnostic);
either way the record degrades to an empty mapping. -/
def versionHeaderRead (path : String) (f : FileState VersionRecord) :
    TomlRead VersionRecord :=
  match f with
  | FileState.missing => ⟨[], Except.ok ⟨none⟩⟩
  | FileState.malformed => ⟨["Error decoding " ++ path], Except.ok ⟨none⟩⟩
  | FileState.parsed r => ⟨[], Except.ok r⟩

/-- Lines 86-96: the per-case result read catches only FileNotFoundError;
a TOML decode failure is an uncaught exception with no diagnostic. -/
def caseResultRead (f : FileState CaseRecord) : TomlRead CaseRecord :=
  match f with
  | FileState.missing => ⟨[], Except.ok emptyCaseRecord⟩
  | FileState.malformed => ⟨[], Except.error "tomli.TOMLDecodeError"⟩
  | FileState.parsed r => ⟨[], Except.ok r⟩

/-- Lines 172-178: the summary-table version read catches both exceptions
and prints nothing. -/
def versionSummaryRead (f : FileState VersionRecord) : TomlRead VersionRecord :=
  match f with
  | FileState.missing => ⟨[], Except.ok ⟨none⟩⟩
  | FileState.malformed => ⟨[], Except.ok ⟨none⟩⟩
  | FileState.parsed r => ⟨[], Except.ok r⟩

/-- Line 58: existing_info has square-bracket subscripting, which raises
KeyError when the version key is absent (in particular whenever the read
degraded to an empty mapping); the Python or-expression replaces a falsy
(empty) version string by the default. -/
def headerVersionResolve (path : String) (f : FileState VersionRecord) :
    Except String String :=
  match (versionHeaderRead path f).outcome with
  | Except.error e => Except.error e
  | Except.ok r =>
    match r.version with
    | none => Except.error "KeyError: 'version'"
    | some v => Except.ok (if v = "" then "Unknown version" else v)

/-- Line 180: the summary table uses dict.get with a default instead. -/
def summaryVersionDisplay (f : FileState VersionRecord) : String :=
  match (versionSummaryRead f).outcome with
  | Except.ok r => r.version.getD "Unknown version"
  | Except.error _ => "Unknown version"

/-- Lines 100-106: the manual verdict defaults to Unknown; only then is the
automated verdict consulted, and only a Pass promotes. -/
def effectiveConformance (results : CaseRecord) : String :=
  let conformance := results.conformant.getD "Unknown"
  if conformance = "Unknown" then
    if results.conformance_automated = some "Pass" then "Pass" else conformance
  else conformance

/-- Lines 129-134: the displayed cell label derived from the effective
verdict, the trimmed notes and the two counts. -/
def displayLabel (conformance raw_notes : String) (fn fp : Nat) : String :=
  let c1 := if raw_notes ≠ "" ∧ conformance = "Pass" then "Pass*" else conformance
  if c1 = "Unknown" then
    "Unknown (" ++ toString fn ++ "f-/" ++ toString fp ++ "f+)"
  else c1

/-- Everything lines 98-148 derive from one result record. -/
structure CellOutcome where
  raw_notes : String
  raw_errors_diff : String
  conformance : String
  fn_count : Nat
  fp_count : Nat
  conformance_class : String
  label : String
  cellHtml : String
deriving DecidableEq

/-- Lines 107-109: the notes paragraphs, one p element per newline-split
segment of the trimmed notes. -/
def notesHtmlOf (raw_notes : String) : String :=
  concatStrings ((pySplitNl raw_notes).map (fun note => "<p>" ++ note ++ "</p>"))

/-- Lines 121-127: the CSS classification of the effective verdict. -/
def cssClassOf (conformance : String) : String :=
  if conformance = "Pass" then "conformant"
  else if conformance = "Partial" then "partially-conformant"
  else "not-conformant"

/-- Lines 138-143: the expandable detail payload, present exactly when one
of the trimmed free-text fields is non-empty. -/
def expanderOf (raw_notes raw_errors_diff : String) : String :=
  (if raw_notes ≠ "" then
    "<div style='margin-bottom: 10px;'><strong>Notes:</strong>" ++ notesHtmlOf raw_notes ++ "</div>"
  else "")
  ++ (if raw_errors_diff ≠ "" then
    "<div><strong>Errors Diff:</strong><br><pre style='margin: 5px 0; font-size: 0.9em; white-space: pre-wrap; word-wrap: break-word; overflow-wrap: break-word;'>"
      ++ pyReplaceNl raw_errors_diff ++ "</pre></div>"
  else "")

/-- Lines 136-146: the cell content, wrapped in the hover markup when the
expandable payload exists. -/
def cellHtmlOf (label raw_notes raw_errors_diff : String) : String :=
  if expanderOf raw_notes raw_errors_diff ≠ "" then
    "<div class=\"hover-text\">" ++ label
      ++ "<span class=\"tooltip-text\" id=\"bottom\" style=\"max-width: 400px; width: max-content; white-space: normal; word-wrap: break-word; overflow-wrap: break-word; text-align: left;\">"
      ++ expanderOf raw_notes raw_errors_diff ++ "</span></div>"
  else label

/-- Lines 98-148 without the statistics update: trim the free-text fields,
reconcile the verdict, count the two marker substrings line by line in the
trimmed errors_diff, classify, build the label and the cell HTML with its
optional expander payload. -/
def classifyCell (results : CaseRecord) : CellOutcome :=
  let raw_notes := pyStrip (results.notes.getD "")
  let raw_errors_diff := pyStrip (results.errors_diff.getD "")
  let conformance := effectiveConformance results
  let fn := ((pySplitNl raw_errors_diff).filter
    (fun l => strContains l ": Expected ")).length
  let fp := ((pySplitNl raw_errors_diff).filter
    (fun l => strContains l ": Unexpected errors")).length
  let label := displayLabel conformance raw_notes fn fp
  ⟨raw_notes, raw_errors_diff, conformance, fn, fp, cssClassOf conformance, label,
    cellHtmlOf label raw_notes raw_errors_diff⟩

/-- Lines 113-119: the if/elif statistics attribution followed by the two
unconditional count additions. -/
def updateStats (st : SummaryStats) (c : CellOutcome) : SummaryStats :=
  let st1 :=
    if c.conformance = "Pass" then
      SummaryStats.mk (st.passes + 1) st.partialCount st.false_positives st.false_negatives
    else if c.conformance = "Partial" ∨ c.conformance = "Unknown" then
      SummaryStats.mk st.passes (st.partialCount + 1) st.false_positives st.false_negatives
    else st
  SummaryStats.mk st1.passes st1.partialCount
    (st1.false_positives + c.fp_count) (st1.false_negatives + c.fn_count)

/-- Python string comparison: lexicographic on code points. -/
def lexLe : List Char → List Char → Bool
  | [], _ => true
  | _ :: _, [] => false
  | a :: as, b :: bs =>
    if a.toNat < b.toNat then true
    else if a.toNat = b.toNat then lexLe as bs
    else false

/-- The sort key of line 70: the case name. -/
def nameLe (a b : TestCase) : Bool :=
  lexLe a.name.data b.name.data

/-- Stable insertion used by the sort: an element goes in front of the first
element it compares less-or-equal to. -/
def insertByName (a : TestCase) : List TestCase → List TestCase
  | [] => [a]
  | b :: bs => if nameLe a b then a :: b :: bs else b :: insertByName a bs

/-- Line 70: tests_in_group.sort(key=lambda x: x.name), a stable sort by
name in ascending lexicographic order. -/
def sortByName : List TestCase → List TestCase
  | [] => []
  | a :: as => insertByName a (sortByName as)

/-- Python startswith. -/
def strStartsWith (s pre : String) : Bool :=
  pre.data.isPrefixOf s.data

/-- Lines 66-70: the members of a test group are the catalog cases whose
name starts with the group name followed by an underscore, sorted by name. -/
def tests_in_group (test_cases : List TestCase) (group_name : String) : List TestCase :=
  sortByName (test_cases.filter (fun c => strStartsWith c.name (group_name ++ "_")))

/-- The summary_stats value for one tool before any case is processed. -/
def zeroStats : String → SummaryStats := fun _ => ⟨0, 0, 0, 0⟩

/-- Line 118 and friends address summary_stats by tool name; the dict is
modelled as a total function from names to stats (Python initializes
exactly the registered tool names, and only those are ever read). -/
def updateStatsFor (stats : String → SummaryStats) (name : String)
    (c : CellOutcome) : String → SummaryStats :=
  fun n => if n = name then updateStats (stats n) c else stats n

/-- The mutable state of the table walk: the summary_html fragments appended
so far, in order, and the summary_stats dict. -/
structure WalkState where
  html : List String
  stats : String → SummaryStats

/-- The record obtained for one (tool, case) pair once its read succeeded:
a missing file degrades to the empty record, a parsed file is itself.  (A
malformed file never reaches this point: its read aborts the walk.) -/
def recordOf (fs : String → String → FileState CaseRecord)
    (tool stem : String) : CaseRecord :=
  match fs tool stem with
  | FileState.parsed r => r
  | _ => emptyCaseRecord

/-- Line 148: the classified verdict cell appended for one pair. -/
def cellFrag (c : CellOutcome) : String :=
  "<th class=\"column col2 " ++ c.conformance_class ++ "\">" ++ c.cellHtml ++ "</th>"

/-- Line 83: the row opener holding the indented case stem. -/
def rowOpenFrag (stem : String) : String :=
  "<tr><th class=\"column col1\">&nbsp;&nbsp;&nbsp;&nbsp;&nbsp;" ++ stem ++ "</th>"

/-- Lines 85-148, the inner loop of one case row: for each registered tool
in order, read that tool's result file for the case (aborting on a decode
error), classify it, update the tool's statistics and append the cell. -/
def runCaseTools (fs : String → String → FileState CaseRecord) (stem : String) :
    List TypeChecker → WalkState → Except String WalkState
  | [], st => Except.ok st
  | t :: ts, st =>
    match (caseResultRead (fs t.name stem)).outcome with
    | Except.error e => Except.error e
    | Except.ok results =>
      let c := classifyCell results
      runCaseTools fs stem ts
        ⟨st.html ++ [cellFrag c], updateStatsFor st.stats t.name c⟩

/-- Lines 80-150: one row per member case. -/
def runCases (fs : String → String → FileState CaseRecord)
    (tools : List TypeChecker) :
    List TestCase → WalkState → Except String WalkState
  | [], st => Except.ok st
  | c :: cs, st =>
    match runCaseTools fs c.stem tools ⟨st.html ++ [rowOpenFrag c.stem], st.stats⟩ with
    | Except.error e => Except.error e
    | Except.ok st2 => runCases fs tools cs ⟨st2.html ++ ["</tr>"], st2.stats⟩

/-- Lines 74-78: the full-width heading row of a rendered group. -/
def groupHeadFrags (column_count : Nat) (g : TestGroup) : List String :=
  ["<tr><th class=\"column\" colspan=\"" ++ toString column_count ++ "\">",
   "<a class=\"test_group\" href=\"" ++ g.href ++ "\">" ++ g.name ++ "</a>",
   "</th></tr>"]

/-- Lines 65-150, the outer loop: walk the groups in catalog order; a group
with members gets a heading row and its member rows, a group without
members is skipped entirely. -/
def runGroups (fs : String → String → FileState CaseRecord)
    (tools : List TypeChecker) (test_cases : List TestCase) (column_count : Nat) :
    List (String × TestGroup) → WalkState → Except String WalkState
  | [], st => Except.ok st
  | (gname, g) :: gs, st =>
    let members := tests_in_group test_cases gname
    if members.length > 0 then
      match runCases fs tools members
          ⟨st.html ++ groupHeadFrags column_count g, st.stats⟩ with
      | Except.error e => Except.error e
      | Except.ok st2 => runGroups fs tools test_cases column_count gs st2
    else runGroups fs tools test_cases column_count gs st

/-- Line 60: the header cell carrying a tool's resolved version string. -/
def headerFrag (version : String) : String :=
  "<th class='tc-header'><div class='tc-name'>" ++ version ++ "</div>"

/-- The on-disk path of a tool's version record, used in the diagnostic. -/
def versionPath (toolName : String) : String :=
  "results/" ++ toolName ++ "/version.toml"

/-- Lines 45-63, the header loop: one version load and two appended
fragments per registered tool; a missing or empty version record makes the
subscript on line 58 raise and the run abort. -/
def headerCells (vfs : String → FileState VersionRecord) :
    List TypeChecker → Except String (List String)
  | [] => Except.ok []
  | t :: ts =>
    match headerVersionResolve (versionPath t.name) (vfs t.name) with
    | Except.error e => Except.error e
    | Except.ok v =>
      match headerCells vfs ts with
      | Except.error e => Except.error e
      | Except.ok rest => Except.ok (headerFrag v :: "</th>" :: rest)

/-- Lines 167-187: one summary-statistics row per tool, reading the version
record again (silently this time) and printing the four counters. -/
def summaryRows (vfs : String → FileState VersionRecord)
    (stats : String → SummaryStats) : List TypeChecker → List String
  | [] => []
  | t :: ts =>
    let version := summaryVersionDisplay (vfs t.name)
    let s := stats t.name
    ("<tr><th class=\"col1\">" ++ version ++ "</th>")
      :: ("<td class=\"column conformant\">" ++ toString s.passes ++ "</td>")
      :: ("<td class=\"column partially-conformant\">" ++ toString s.partialCount ++ "</td>")
      :: ("<td class=\"column\">" ++ toString s.false_positives ++ "</td>")
      :: ("<td class=\"column\">" ++ toString s.false_negatives ++ "</td>")
      :: "</tr>" :: summaryRows vfs stats ts

/-- generate_summary_html (lines 27-191): the header row, the detail-table
walk, the closing markup, the summary-statistics table, all joined with
newlines.  The file system is split into the version records (by tool name)
and the case records (by tool name and case stem). -/
def generate_summary_html (vfs : String → FileState VersionRecord)
    (fs : String → String → FileState CaseRecord)
    (tools : List TypeChecker) (test_groups : List (String × TestGroup))
    (test_cases : List TestCase) : Except String String :=
  let column_count := tools.length + 1
  match headerCells vfs tools with
  | Except.error e => Except.error e
  | Except.ok hdr =>
    let st0 : WalkState :=
      ⟨["<div class=\"table_container\"><table><tbody>",
        "<tr><th class=\"col1\">&nbsp;</th>"] ++ hdr ++ ["</tr>"], zeroStats⟩
    match runGroups fs tools test_cases column_count test_groups st0 with
    | Except.error e => Except.error e
    | Except.ok st =>
      let frags := st.html
        ++ ["</tbody></table></div>\n",
            "<div style=\"margin-top: 30px;\"><h3>Summary Statistics</h3>",
            "<div class=\"table_container\"><table><tbody>",
            "<tr><th class=\"col1\">Type Checker</th>",
            "<th class=\"column\">Total Test Case Passes</th>",
            "<th class=\"column\">Total Test Case Partial</th>",
            "<th class=\"column\">Total False Positives</th>",
            "<th class=\"column\">Total False Negatives</th>",
            "</tr>"]
        ++ summaryRows vfs st.stats tools
        ++ ["</tbody></table></div></div>\n"]
      Except.ok (joinSep "\n" frags)

/-- The statistics a finished walk left for one tool (zeros when the walk
aborted and never produced any). -/
def statsOf (r : Except String WalkState) (n : String) : SummaryStats :=
  match r with
  | Except.ok st => st.stats n
  | Except.error _ => ⟨0, 0, 0, 0⟩

/-- The document a finished run produced (empty when it aborted). -/
def htmlOutput (r : Except String String) : String :=
  match r with
  | Except.ok s => s
  | Except.error _ => ""

/-!  Pure characterizations of the imperative walk, used to state and prove
the claims: what the loops append and how they move the statistics. -/

/-- The cell fragments one case row emits, one per registered tool. -/
def rowCellsP (fs : String → String → FileState CaseRecord) (stem : String)
    (tools : List TypeChecker) : List String :=
  tools.map (fun t => cellFrag (classifyCell (recordOf fs t.name stem)))

/-- How one case row moves the statistics dict: each tool's entry absorbs
the classification of its own record for the case. -/
def rowStatsP (fs : String → String → FileState CaseRecord) (stem : String)
    (tools : List TypeChecker) (s : String → SummaryStats) : String → SummaryStats :=
  tools.foldl (fun st t => updateStatsFor st t.name (classifyCell (recordOf fs t.name stem))) s

/-- All fragments of one case row: opener, the per-tool cells, closer. -/
def caseRowFrags (fs : String → String → FileState CaseRecord)
    (tools : List TypeChecker) (c : TestCase) : List String :=
  rowOpenFrag c.stem :: (rowCellsP fs c.stem tools ++ ["</tr>"])

/-- How a list of case rows moves the statistics dict. -/
def casesStatsFold (fs : String → String → FileState CaseRecord)
    (tools : List TypeChecker) (cs : List TestCase)
    (s : String → SummaryStats) : String → SummaryStats :=
  cs.foldl (fun st c => rowStatsP fs c.stem tools st) s

/-- The fragments one catalog group emits: nothing at all when it has no
member cases, otherwise its heading rows followed by its member rows. -/
def groupFrags (fs : String → String → FileState CaseRecord)
    (tools : List TypeChecker) (test_cases : List TestCase) (column_count : Nat)
    (p : String × TestGroup) : List String :=
  let members := tests_in_group test_cases p.1
  if members.length > 0 then
    groupHeadFrags column_count p.2 ++ members.flatMap (caseRowFrags fs tools)
  else []

/-- How the whole group walk moves the statistics dict. -/
def groupsStatsFold (fs : String → String → FileState CaseRecord)
    (tools : List TypeChecker) (test_cases : List TestCase)
    (gs : List (String × TestGroup)) (s : String → SummaryStats) : String → SummaryStats :=
  gs.foldl (fun st p => casesStatsFold fs tools (tests_in_group test_cases p.1) st) s

/-- The sequence of cases the walk processes: for each group in catalog
order, its sorted member cases.  A case appears here once per group whose
prefix matches its name. -/
def processedCases (gs : List (String × TestGroup))
    (test_cases : List TestCase) : List TestCase :=
  gs.flatMap (fun p => tests_in_group test_cases p.1)

/-- The precondition of the bucket invariant: the record's manual verdict
field is absent or one of the three recognized strings. -/
def conformantOK (r : CaseRecord) : Prop :=
  r.conformant = none ∨ r.conformant = some "Pass" ∨
    r.conformant = some "Partial" ∨ r.conformant = some "Unknown"

/-- The spec-side count: how many newline-separated lines of a text contain
a marker substring. -/
def linesMatchingCount (marker s : String) : Nat :=
  ((pySplitNl s).filter (fun l => strContains l marker)).length

/-- The sortedness relation of the member lists: name order. -/
def LeP (a b : TestCase) : Prop :=
  nameLe a b = true

/-- The text sub occurs verbatim (contiguously, unescaped) inside s. -/
def strIn (sub s : String) : Prop :=
  ∃ p q, s = p ++ sub ++ q

/-!  Basic string-algebra and sorting lemmas. -/

theorem append_ne_empty_left (a b : String) (h : a ≠ "") : a ++ b ≠ "" := by
  intro hc
  apply h
  have hd := congrArg String.data hc
  rw [String.data_append] at hd
  exact String.ext (by rw [(List.append_eq_nil.mp hd).1])

theorem strIn_self (s : String) : strIn s s :=
  ⟨"", "", by simp⟩

theorem strIn_append_left {x a : String} (b : String) (h : strIn x a) :
    strIn x (a ++ b) := by
  rcases h with ⟨p, q, rfl⟩
  exact ⟨p, q ++ b, by simp [String.append_assoc]⟩

theorem strIn_append_right {x b : String} (a : String) (h : strIn x b) :
    strIn x (a ++ b) := by
  rcases h with ⟨p, q, rfl⟩
  exact ⟨a ++ p, q, by simp [String.append_assoc]⟩

theorem strIn_concat_map {x : String} (f : String → String) :
    ∀ {l : List String} {a : String}, a ∈ l → strIn x (f a) →
      strIn x (concatStrings (l.map f))
  | b :: bs, a, ha, hx => by
    simp only [List.map_cons, concatStrings]
    rcases List.mem_cons.mp ha with rfl | ha2
    · exact strIn_append_left _ hx
    · exact strIn_append_right _ (strIn_concat_map f ha2 hx)

theorem strIn_joinSep (sep : String) :
    ∀ {l : List String} {a : String}, a ∈ l → strIn a (joinSep sep l)
  | [], _, ha => absurd ha (List.not_mem_nil _)
  | [x], a, ha => by
    rcases List.mem_singleton.mp ha with rfl
    simpa [joinSep] using strIn_self a
  | x :: y :: xs, a, ha => by
    simp only [joinSep]
    rcases List.mem_cons.mp ha with rfl | ha2
    · exact strIn_append_left _ (strIn_append_left _ (strIn_self a))
    · exact strIn_append_right _ (strIn_joinSep sep ha2)

theorem lexLe_total : ∀ as bs : List Char, lexLe as bs = false → lexLe bs as = true
  | [], _, h => by simp [lexLe] at h
  | _ :: _, [], _ => by simp [lexLe]
  | a :: as, b :: bs, h => by
    by_cases h1 : a.toNat < b.toNat
    · simp [lexLe, h1] at h
    · by_cases h2 : a.toNat = b.toNat
      · have h3 : lexLe as bs = false := by simpa [lexLe, h1, h2] using h
        have hba : ¬ b.toNat < a.toNat := by omega
        simp [lexLe, hba, h2.symm, lexLe_total as bs h3]
      · have h4 : b.toNat < a.toNat := by omega
        simp [lexLe, h4]

theorem lexLe_trans : ∀ as bs cs : List Char,
    lexLe as bs = true → lexLe bs cs = true → lexLe as cs = true
  | [], _, cs, _, _ => by simp [lexLe]
  | _ :: _, [], _, h1, _ => by simp [lexLe] at h1
  | _ :: _, _ :: _, [], _, h2 => by simp [lexLe] at h2
  | a :: as, b :: bs, c :: cs, h1, h2 => by
    by_cases hab : a.toNat < b.toNat
    · by_cases hbc : b.toNat < c.toNat
      · have : a.toNat < c.toNat := by omega
        simp [lexLe, this]
      · by_cases hbc2 : b.toNat = c.toNat
        · have : a.toNat < c.toNat := by omega
          simp [lexLe, this]
        · simp [lexLe, hbc, hbc2] at h2
    · by_cases hab2 : a.toNat = b.toNat
      · have h1t : lexLe as bs = true := by simpa [lexLe, hab, hab2] using h1
        by_cases hbc : b.toNat < c.toNat
        · have : a.toNat < c.toNat := by omega
          simp [lexLe, this]
        · by_cases hbc2 : b.toNat = c.toNat
          · have h2t : lexLe bs cs = true := by simpa [lexLe, hbc, hbc2] using h2
            have hac : a.toNat = c.toNat := by omega
            have hac2 : ¬ a.toNat < c.toNat := by omega
            simp [lexLe, hac, hac2, lexLe_trans as bs cs h1t h2t]
          · simp [lexLe, hbc, hbc2] at h2
      · simp [lexLe, hab, hab2] at h1

theorem nameLe_total {a b : TestCase} (h : nameLe a b = false) : nameLe b a = true :=
  lexLe_total _ _ h

theorem nameLe_trans {a b c : TestCase} (h1 : nameLe a b = true)
    (h2 : nameLe b c = true) : nameLe a c = true :=
  lexLe_trans _ _ _ h1 h2

theorem perm_insertByName (a : TestCase) :
    ∀ l : List TestCase, (insertByName a l).Perm (a :: l)
  | [] => List.Perm.refl _
  | b :: bs => by
    simp only [insertByName]
    split_ifs with h
    · exact List.Perm.refl _
    · exact ((perm_insertByName a bs).cons b).trans (List.Perm.swap a b bs)

theorem sortByName_perm : ∀ l : List TestCase, (sortByName l).Perm l
  | [] => List.Perm.refl _
  | a :: as => by
    simpa [sortByName] using (perm_insertByName a (sortByName as)).trans
      ((sortByName_perm as).cons a)

theorem sorted_insertByName (a : TestCase) :
    ∀ {l : List TestCase}, List.Pairwise LeP l →
      List.Pairwise LeP (insertByName a l)
  | [], _ => by simp [insertByName, LeP]
  | b :: bs, h => by
    rcases List.pairwise_cons.mp h with ⟨hb, hbs⟩
    simp only [insertByName]
    split_ifs with hab
    · refine List.pairwise_cons.mpr ⟨?_, h⟩
      intro x hx
      rcases List.mem_cons.mp hx with rfl | hx2
      · exact hab
      · exact nameLe_trans hab (hb x hx2)
    · refine List.pairwise_cons.mpr ⟨?_, sorted_insertByName a hbs⟩
      intro x hx
      rcases List.mem_cons.mp ((perm_insertByName a bs).mem_iff.mp hx) with rfl | hx2
      · exact nameLe_total (by simpa using hab)
      · exact hb x hx2

theorem sortByName_sorted : ∀ l : List TestCase, List.Pairwise LeP (sortByName l)
  | [] => List.Pairwise.nil
  | a :: as => sorted_insertByName a (sortByName_sorted as)

/-!  The classifier exposes its pieces. -/

theorem classifyCell_conformance (r : CaseRecord) :
    (classifyCell r).conformance = effectiveConformance r := rfl

theorem classifyCell_raw_notes (r : CaseRecord) :
    (classifyCell r).raw_notes = pyStrip (r.notes.getD "") := rfl

theorem classifyCell_raw_errors (r : CaseRecord) :
    (classifyCell r).raw_errors_diff = pyStrip (r.errors_diff.getD "") := rfl

theorem classifyCell_fn (r : CaseRecord) :
    (classifyCell r).fn_count =
      linesMatchingCount ": Expected " (pyStrip (r.errors_diff.getD "")) := rfl

theorem classifyCell_fp (r : CaseRecord) :
    (classifyCell r).fp_count =
      linesMatchingCount ": Unexpected errors" (pyStrip (r.errors_diff.getD "")) := rfl

theorem classifyCell_class (r : CaseRecord) :
    (classifyCell r).conformance_class = cssClassOf (effectiveConformance r) := rfl

theorem classifyCell_label (r : CaseRecord) :
    (classifyCell r).label = displayLabel (effectiveConformance r)
      (pyStrip (r.notes.getD "")) (classifyCell r).fn_count (classifyCell r).fp_count := rfl

theorem classifyCell_cellHtml (r : CaseRecord) :
    (classifyCell r).cellHtml = cellHtmlOf (classifyCell r).label
      (pyStrip (r.notes.getD "")) (pyStrip (r.errors_diff.getD "")) := rfl

theorem effectiveConformance_cases {r : CaseRecord} (h : conformantOK r) :
    effectiveConformance r = "Pass" ∨ effectiveConformance r = "Partial" ∨
      effectiveConformance r = "Unknown" := by
  rcases h with h | h | h | h
  · by_cases ha : r.conformance_automated = some "Pass"
    · exact Or.inl (by simp [effectiveConformance, h, ha])
    · exact Or.inr (Or.inr (by simp [effectiveConformance, h, ha]))
  · exact Or.inl (by simp [effectiveConformance, h])
  · exact Or.inr (Or.inl (by simp [effectiveConformance, h]))
  · by_cases ha : r.conformance_automated = some "Pass"
    · exact Or.inl (by simp [effectiveConformance, h, ha])
    · exact Or.inr (Or.inr (by simp [effectiveConformance, h, ha]))

theorem updateStats_sum {c : CellOutcome}
    (h : c.conformance = "Pass" ∨ c.conformance = "Partial" ∨ c.conformance = "Unknown")
    (s : SummaryStats) :
    (updateStats s c).passes + (updateStats s c).partialCount =
      s.passes + s.partialCount + 1 := by
  rcases h with h | h | h
  · simp only [updateStats, h]
    simp
    omega
  · simp only [updateStats, h]
    simp
    omega
  · simp only [updateStats, h]
    simp
    omega

/-!  The imperative walk is characterized by the pure fragment and
statistics functions. -/

theorem caseResultRead_ok (fs : String → String → FileState CaseRecord)
    (n s : String) (h : fs n s ≠ FileState.malformed) :
    (caseResultRead (fs n s)).outcome = Except.ok (recordOf fs n s) := by
  cases hfs : fs n s with
  | missing => simp [caseResultRead, recordOf, hfs]
  | malformed => exact absurd hfs h
  | parsed r => simp [caseResultRead, recordOf, hfs]

theorem runCaseTools_eq (fs : String → String → FileState CaseRecord) (stem : String)
    (hm : ∀ n s, fs n s ≠ FileState.malformed) :
    ∀ (tools : List TypeChecker) (st : WalkState),
      runCaseTools fs stem tools st =
        Except.ok ⟨st.html ++ rowCellsP fs stem tools, rowStatsP fs stem tools st.stats⟩
  | [], st => by simp [runCaseTools, rowCellsP, rowStatsP]
  | t :: ts, st => by
    simp only [runCaseTools, caseResultRead_ok fs t.name stem (hm t.name stem)]
    rw [runCaseTools_eq fs stem hm ts]
    simp [rowCellsP, rowStatsP, List.append_assoc]

theorem runCases_eq (fs : String → String → FileState CaseRecord)
    (tools : List TypeChecker) (hm : ∀ n s, fs n s ≠ FileState.malformed) :
    ∀ (cs : List TestCase) (st : WalkState),
      runCases fs tools cs st =
        Except.ok ⟨st.html ++ cs.flatMap (caseRowFrags fs tools),
          casesStatsFold fs tools cs st.stats⟩
  | [], st => by simp [runCases, casesStatsFold]
  | c :: cs, st => by
    simp only [runCases, runCaseTools_eq fs c.stem hm tools]
    rw [runCases_eq fs tools hm cs]
    simp [caseRowFrags, casesStatsFold, List.append_assoc]

theorem runGroups_eq (fs : String → String → FileState CaseRecord)
    (tools : List TypeChecker) (test_cases : List TestCase) (cc : Nat)
    (hm : ∀ n s, fs n s ≠ FileState.malformed) :
    ∀ (gs : List (String × TestGroup)) (st : WalkState),
      runGroups fs tools test_cases cc gs st =
        Except.ok ⟨st.html ++ gs.flatMap (groupFrags fs tools test_cases cc),
          groupsStatsFold fs tools test_cases gs st.stats⟩
  | [], st => by simp [runGroups, groupsStatsFold]
  | (gname, g) :: gs, st => by
    simp only [runGroups]
    split_ifs with hlen
    · simp only [runCases_eq fs tools hm (tests_in_group test_cases gname)]
      rw [runGroups_eq fs tools test_cases cc hm gs]
      simp [groupFrags, groupsStatsFold, hlen, List.append_assoc]
    · rw [runGroups_eq fs tools test_cases cc hm gs]
      have h0 : tests_in_group test_cases gname = [] :=
        List.length_eq_zero.mp (by omega)
      simp [groupFrags, groupsStatsFold, hlen, h0, casesStatsFold]

theorem groupsStatsFold_eq (fs : String → String → FileState CaseRecord)
    (tools : List TypeChecker) (test_cases : List TestCase) :
    ∀ (gs : List (String × TestGroup)) (s : String → SummaryStats),
      groupsStatsFold fs tools test_cases gs s =
        casesStatsFold fs tools (processedCases gs test_cases) s := by
  intro gs
  induction gs with
  | nil => intro s; rfl
  | cons p gs ih =>
    intro s
    show groupsStatsFold fs tools test_cases gs
      (casesStatsFold fs tools (tests_in_group test_cases p.1) s) = _
    rw [ih]
    simp [processedCases, casesStatsFold, List.foldl_append]

theorem updateStatsFor_same (s : String → SummaryStats) (n : String) (c : CellOutcome) :
    updateStatsFor s n c n = updateStats (s n) c := by
  simp [updateStatsFor]

theorem updateStatsFor_other {n m : String} (h : n ≠ m)
    (s : String → SummaryStats) (c : CellOutcome) :
    updateStatsFor s m c n = s n := by
  simp [updateStatsFor, h]

theorem rowStatsP_not_mem (fs : String → String → FileState CaseRecord) (stem : String) :
    ∀ (tools : List TypeChecker) (s : String → SummaryStats) {n : String},
      n ∉ tools.map TypeChecker.name → rowStatsP fs stem tools s n = s n
  | [], _, _, _ => rfl
  | t :: ts, s, n, h => by
    simp only [List.map_cons, List.mem_cons, not_or] at h
    show rowStatsP fs stem ts
      (updateStatsFor s t.name (classifyCell (recordOf fs t.name stem))) n = s n
    rw [rowStatsP_not_mem fs stem ts _ h.2, updateStatsFor_other h.1]

theorem rowStatsP_proj (fs : String → String → FileState CaseRecord) (stem : String) :
    ∀ (tools : List TypeChecker) (s : String → SummaryStats) {t : TypeChecker},
      (tools.map TypeChecker.name).Nodup → t ∈ tools →
      rowStatsP fs stem tools s t.name =
        updateStats (s t.name) (classifyCell (recordOf fs t.name stem))
  | [], _, t, _, ht => absurd ht (List.not_mem_nil t)
  | t0 :: ts, s, t, hnd, ht => by
    simp only [List.map_cons, List.nodup_cons] at hnd
    rcases List.mem_cons.mp ht with rfl | hts
    · show rowStatsP fs stem ts
        (updateStatsFor s t.name (classifyCell (recordOf fs t.name stem))) t.name = _
      rw [rowStatsP_not_mem fs stem ts _ hnd.1, updateStatsFor_same]
    · have hne : t.name ≠ t0.name := by
        intro he
        exact hnd.1 (by rw [← he]; exact List.mem_map_of_mem TypeChecker.name hts)
      show rowStatsP fs stem ts
        (updateStatsFor s t0.name (classifyCell (recordOf fs t0.name stem))) t.name = _
      rw [rowStatsP_proj fs stem ts _ hnd.2 hts, updateStatsFor_other hne]

theorem casesStatsFold_proj (fs : String → String → FileState CaseRecord)
    (tools : List TypeChecker) {t : TypeChecker}
    (hnd : (tools.map TypeChecker.name).Nodup) (ht : t ∈ tools) :
    ∀ (cs : List TestCase) (s : String → SummaryStats),
      casesStatsFold fs tools cs s t.name =
        cs.foldl (fun a c => updateStats a (classifyCell (recordOf fs t.name c.stem)))
          (s t.name)
  | [], _ => rfl
  | c :: cs, s => by
    show casesStatsFold fs tools cs (rowStatsP fs c.stem tools s) t.name = _
    rw [casesStatsFold_proj fs tools hnd ht cs, rowStatsP_proj fs c.stem tools s hnd ht]
    simp [List.foldl_cons]

theorem foldStats_sum (fs : String → String → FileState CaseRecord) (n : String)
    (hok : ∀ stem : String, conformantOK (recordOf fs n stem)) :
    ∀ (cs : List TestCase) (a : SummaryStats),
      (cs.foldl (fun a c => updateStats a (classifyCell (recordOf fs n c.stem))) a).passes
        + (cs.foldl (fun a c => updateStats a (classifyCell (recordOf fs n c.stem))) a).partialCount
        = a.passes + a.partialCount + cs.length
  | [], a => by simp
  | c :: cs, a => by
    simp only [List.foldl_cons, List.length_cons]
    rw [foldStats_sum fs n hok cs]
    have h1 : (classifyCell (recordOf fs n c.stem)).conformance =
        effectiveConformance (recordOf fs n c.stem) := rfl
    have h2 := effectiveConformance_cases (hok c.stem)
    rw [← h1] at h2
    have h3 := updateStats_sum h2 a
    omega

theorem append_ne_empty_right (a b : String) (h : b ≠ "") : a ++ b ≠ "" := by
  intro hc
  apply h
  have hd := congrArg String.data hc
  rw [String.data_append] at hd
  exact String.ext (by rw [(List.append_eq_nil.mp hd).2])

theorem count_tests_in_group (test_cases : List TestCase) (gname : String)
    {c : TestCase} (hcn : test_cases.Nodup) (hc : c ∈ test_cases) :
    (tests_in_group test_cases gname).count c =
      if strStartsWith c.name (gname ++ "_") = true then 1 else 0 := by
  unfold tests_in_group
  rw [(sortByName_perm _).count_eq c]
  by_cases hss : strStartsWith c.name (gname ++ "_") = true
  · rw [if_pos hss]
    have h2 : List.count c
        (List.filter (fun x => strStartsWith x.name (gname ++ "_")) test_cases)
        = List.count c test_cases := List.count_filter hss
    rw [h2, List.count_eq_one_of_mem hcn hc]
  · rw [if_neg hss]
    refine List.count_eq_zero.mpr ?_
    intro hmem
    exact hss (List.mem_filter.mp hmem).2

theorem count_processedCases (test_cases : List TestCase) {c : TestCase}
    (hcn : test_cases.Nodup) (hc : c ∈ test_cases) :
    ∀ gs : List (String × TestGroup),
      (processedCases gs test_cases).count c =
        (gs.filter (fun p => strStartsWith c.name (p.1 ++ "_"))).length
  | [] => by simp [processedCases]
  | p :: gs => by
    rw [show processedCases (p :: gs) test_cases =
        tests_in_group test_cases p.1 ++ processedCases gs test_cases from rfl,
      List.count_append, count_tests_in_group test_cases p.1 hcn hc,
      count_processedCases test_cases hcn hc gs]
    by_cases hss : strStartsWith c.name (p.1 ++ "_") = true
    · simp [List.filter_cons, hss]
      omega
    · simp [List.filter_cons, hss]

/-!  The claims. -/

/-- Claim C1, amended: for a (case, tool) pair whose per-tool result file
does not exist, the read degrades to the empty record, the rendered cell's
CSS classification is indeed not-conformant, but processing the pair adds 1
to the tool's partial counter (a missing record classifies as Unknown) and
0 to the remaining three counters (passes, false_positives,
false_negatives). -/
theorem claim_C1 (s : SummaryStats) :
    (caseResultRead FileState.missing).outcome = Except.ok emptyCaseRecord ∧
    (classifyCell emptyCaseRecord).conformance_class = "not-conformant" ∧
    updateStats s (classifyCell emptyCaseRecord) =
      ⟨s.passes, s.partialCount + 1, s.false_positives, s.false_negatives⟩ := by
  refine ⟨rfl, by decide, ?_⟩
  have h : (classifyCell emptyCaseRecord).conformance = "Unknown" := by decide
  have hfn : (classifyCell emptyCaseRecord).fn_count = 0 := by decide
  have hfp : (classifyCell emptyCaseRecord).fp_count = 0 := by decide
  simp [updateStats, h, hfn, hfp]

/-- Claim C1, counterexample to the claim as stated: with all-zero counters,
processing a missing-file pair does change the tool's counters (the partial
counter becomes 1), so it does not add 0 to every one of the four. -/
theorem claim_C1_cex :
    (caseResultRead FileState.missing).outcome = Except.ok emptyCaseRecord ∧
    updateStats ⟨0, 0, 0, 0⟩ (classifyCell emptyCaseRecord) ≠ ⟨0, 0, 0, 0⟩ ∧
    (updateStats ⟨0, 0, 0, 0⟩ (classifyCell emptyCaseRecord)).partialCount = 1 :=
  ⟨rfl, by decide, by decide⟩

/-- Claim C2, amended: the three structured-text read sites react to a TOML
decode failure differently.  The header version read prints a diagnostic
and degrades to the empty record, but the run then aborts anyway when the
version key is subscripted out of the empty record; the summary version
read degrades to the empty record silently, with no diagnostic; the
per-case result read does not catch the decode failure at all, so the
exception propagates (no diagnostic, run aborts). -/
theorem claim_C2 (path : String) :
    versionHeaderRead path FileState.malformed =
      ⟨["Error decoding " ++ path], Except.ok ⟨none⟩⟩ ∧
    headerVersionResolve path FileState.malformed =
      Except.error "KeyError: 'version'" ∧
    versionSummaryRead FileState.malformed = ⟨[], Except.ok ⟨none⟩⟩ ∧
    caseResultRead FileState.malformed =
      ⟨[], Except.error "tomli.TOMLDecodeError"⟩ :=
  ⟨rfl, rfl, rfl, rfl⟩

/-- Claim C2, counterexample to the claim as stated: a malformed per-case
result file yields no diagnostic and an uncaught exception instead of an
empty record, and a malformed version file read by the summary table yields
no diagnostic either. -/
theorem claim_C2_cex :
    (caseResultRead FileState.malformed).diagnostics = [] ∧
    (caseResultRead FileState.malformed).outcome =
      Except.error "tomli.TOMLDecodeError" ∧
    (versionSummaryRead FileState.malformed).diagnostics = [] :=
  ⟨rfl, rfl, rfl⟩

/-- Claim C3: the claim matches the evident intent (the or-default on the
header line and the get-default on the summary line both spell the string
Unknown version), but the header path subscripts the missing key and a tool
with no version record makes the whole run abort with a KeyError instead of
completing with Unknown version in the header. -/
theorem claim_C3 :
    generate_summary_html (fun _ => FileState.missing) (fun _ _ => FileState.missing)
      [⟨"t"⟩] [] [] = Except.error "KeyError: 'version'" ∧
    headerVersionResolve (versionPath "t") FileState.missing =
      Except.error "KeyError: 'version'" ∧
    summaryVersionDisplay FileState.missing = "Unknown version" :=
  ⟨rfl, rfl, rfl⟩

/-- Claim C4: when the manual verdict is absent or Unknown and the
automated verdict is Pass, the effective verdict is Pass for display and
statistics (passes increments, partial does not); when the manual verdict
is Partial or Pass, the automated field is ignored entirely. -/
theorem claim_C4 (r : CaseRecord) (s : SummaryStats) :
    ((r.conformant = none ∨ r.conformant = some "Unknown") →
      r.conformance_automated = some "Pass" →
        (classifyCell r).conformance = "Pass" ∧
        (updateStats s (classifyCell r)).passes = s.passes + 1 ∧
        (updateStats s (classifyCell r)).partialCount = s.partialCount) ∧
    (∀ v : Option String, r.conformant = some "Partial" →
      (classifyCell ⟨r.conformant, v, r.notes, r.errors_diff⟩).conformance = "Partial") ∧
    (∀ v : Option String, r.conformant = some "Pass" →
      (classifyCell ⟨r.conformant, v, r.notes, r.errors_diff⟩).conformance = "Pass") := by
  refine ⟨?_, ?_, ?_⟩
  · intro hc ha
    have h : (classifyCell r).conformance = "Pass" := by
      rw [classifyCell_conformance]
      rcases hc with hc | hc
      · simp [effectiveConformance, hc, ha]
      · simp [effectiveConformance, hc, ha]
    refine ⟨h, ?_, ?_⟩
    · simp [updateStats, h]
    · simp [updateStats, h]
  · intro v hc
    rw [classifyCell_conformance]
    simp [effectiveConformance, hc]
  · intro v hc
    rw [classifyCell_conformance]
    simp [effectiveConformance, hc]

/-- Claim C4, witness at a concrete record. -/
theorem claim_C4_witness :
    (classifyCell ⟨some "Unknown", some "Pass", none, none⟩).conformance = "Pass" ∧
    (updateStats ⟨0, 0, 0, 0⟩
      (classifyCell ⟨some "Unknown", some "Pass", none, none⟩)).passes = 0 + 1 ∧
    (updateStats ⟨0, 0, 0, 0⟩
      (classifyCell ⟨some "Unknown", some "Pass", none, none⟩)).partialCount = 0 :=
  (claim_C4 ⟨some "Unknown", some "Pass", none, none⟩ ⟨0, 0, 0, 0⟩).1 (Or.inr rfl) rfl

/-- Claim C5, amended: the computed counts equal the number of
newline-separated lines of the whitespace-stripped errors_diff containing
the respective marker, and they are invariant under any permutation of the
lines of the stripped text (the claim as frozen speaks of the lines of the
raw errors_diff, but stripping can remove a trailing space that the
false-negative marker needs, so only the stripped reading holds). -/
theorem claim_C5 (r1 r2 : CaseRecord) :
    ((classifyCell r1).fn_count =
        linesMatchingCount ": Expected " (pyStrip (r1.errors_diff.getD "")) ∧
      (classifyCell r1).fp_count =
        linesMatchingCount ": Unexpected errors" (pyStrip (r1.errors_diff.getD ""))) ∧
    ((pySplitNl (pyStrip (r1.errors_diff.getD ""))).Perm
        (pySplitNl (pyStrip (r2.errors_diff.getD ""))) →
      (classifyCell r1).fn_count = (classifyCell r2).fn_count ∧
      (classifyCell r1).fp_count = (classifyCell r2).fp_count) := by
  refine ⟨⟨classifyCell_fn r1, classifyCell_fp r1⟩, ?_⟩
  intro hp
  constructor
  · rw [classifyCell_fn, classifyCell_fn]
    simp only [linesMatchingCount, ← List.countP_eq_length_filter]
    exact hp.countP_eq _
  · rw [classifyCell_fp, classifyCell_fp]
    simp only [linesMatchingCount, ← List.countP_eq_length_filter]
    exact hp.countP_eq _

/-- Claim C5, witness: two records whose stripped errors_diff texts are
line permutations of each other get equal counts. -/
theorem claim_C5_witness :
    (classifyCell ⟨none, none, none, some "p: Expected q\nz"⟩).fn_count =
      (classifyCell ⟨none, none, none, some "z\np: Expected q"⟩).fn_count ∧
    (classifyCell ⟨none, none, none, some "p: Expected q\nz"⟩).fp_count =
      (classifyCell ⟨none, none, none, some "z\np: Expected q"⟩).fp_count :=
  (claim_C5 ⟨none, none, none, some "p: Expected q\nz"⟩
    ⟨none, none, none, some "z\np: Expected q"⟩).2 (by decide)

/-- Claim C5, counterexample to the claim as stated: the errors_diff text
consisting of the single line x colon Expected blank has one line
containing the false-negative marker, yet the computed count is 0, because
stripping removes the trailing space the marker ends in; and permuting the
raw lines (moving the trailing space away from the end of the text) changes
the computed count from 0 to 1. -/
theorem claim_C5_cex :
    (classifyCell ⟨none, none, none, some "x: Expected "⟩).fn_count = 0 ∧
    linesMatchingCount ": Expected " "x: Expected " = 1 ∧
    (classifyCell ⟨none, none, none, some "y\nx: Expected "⟩).fn_count = 0 ∧
    (classifyCell ⟨none, none, none, some "x: Expected \ny"⟩).fn_count = 1 ∧
    (pySplitNl "y\nx: Expected ").Perm (pySplitNl "x: Expected \ny") :=
  ⟨by decide, by decide, by decide, by decide, by decide⟩

/-- Claim C6: under the precondition that every record's conformant field
is absent or one of Pass, Partial, Unknown, the passes counter plus the
partial counter of a registered tool after the full table walk equals the
number of (case, tool) pairs processed for that tool: every processed case
lands in exactly one of the two buckets. -/
theorem claim_C6 (fs : String → String → FileState CaseRecord)
    (tools : List TypeChecker) (test_cases : List TestCase)
    (gs : List (String × TestGroup)) (cc : Nat) {t : TypeChecker}
    (hm : ∀ n s, fs n s ≠ FileState.malformed)
    (hnd : (tools.map TypeChecker.name).Nodup) (ht : t ∈ tools)
    (hok : ∀ n s, conformantOK (recordOf fs n s)) :
    (statsOf (runGroups fs tools test_cases cc gs ⟨[], zeroStats⟩) t.name).passes
      + (statsOf (runGroups fs tools test_cases cc gs ⟨[], zeroStats⟩) t.name).partialCount
      = (processedCases gs test_cases).length := by
  rw [runGroups_eq fs tools test_cases cc hm gs]
  show (groupsStatsFold fs tools test_cases gs zeroStats t.name).passes
      + (groupsStatsFold fs tools test_cases gs zeroStats t.name).partialCount
      = (processedCases gs test_cases).length
  rw [groupsStatsFold_eq fs tools test_cases gs zeroStats,
      casesStatsFold_proj fs tools hnd ht (processedCases gs test_cases) zeroStats]
  simpa [zeroStats] using foldStats_sum fs t.name (fun stem => hok t.name stem)
    (processedCases gs test_cases) (zeroStats t.name)

/-- Claim C6, witness: one tool, one group with two member cases, all
result files missing; both land in the partial bucket and the sum is 2. -/
theorem claim_C6_witness :
    (statsOf (runGroups (fun _ _ => FileState.missing) [⟨"t"⟩]
        [⟨"g_1", "g_1"⟩, ⟨"g_2", "g_2"⟩] 2 [("g", ⟨"g", "#g"⟩)] ⟨[], zeroStats⟩) "t").passes
      + (statsOf (runGroups (fun _ _ => FileState.missing) [⟨"t"⟩]
        [⟨"g_1", "g_1"⟩, ⟨"g_2", "g_2"⟩] 2 [("g", ⟨"g", "#g"⟩)] ⟨[], zeroStats⟩) "t").partialCount
      = (processedCases [("g", ⟨"g", "#g"⟩)] [⟨"g_1", "g_1"⟩, ⟨"g_2", "g_2"⟩]).length :=
  claim_C6 (fun _ _ => FileState.missing) [⟨"t"⟩] [⟨"g_1", "g_1"⟩, ⟨"g_2", "g_2"⟩]
    [("g", ⟨"g", "#g"⟩)] 2 (fun _ _ h => FileState.noConfusion h) (by decide)
    (List.mem_singleton.mpr rfl) (fun _ _ => Or.inl rfl)

/-- Claim C7: the displayed cell label is the string Pass-with-asterisk
when the effective verdict is Pass and the trimmed notes are non-empty, the
Unknown string carrying the two computed counts when the effective verdict
is Unknown, and the effective verdict string unchanged in every other
situation. -/
theorem claim_C7 (r : CaseRecord) :
    ((classifyCell r).conformance = "Pass" → (classifyCell r).raw_notes ≠ "" →
      (classifyCell r).label = "Pass*") ∧
    ((classifyCell r).conformance = "Unknown" →
      (classifyCell r).label = "Unknown (" ++ toString (classifyCell r).fn_count
        ++ "f-/" ++ toString (classifyCell r).fp_count ++ "f+)") ∧
    (¬((classifyCell r).conformance = "Pass" ∧ (classifyCell r).raw_notes ≠ "") →
      (classifyCell r).conformance ≠ "Unknown" →
      (classifyCell r).label = (classifyCell r).conformance) := by
  have hl := classifyCell_label r
  have hc := classifyCell_conformance r
  have hn := classifyCell_raw_notes r
  refine ⟨?_, ?_, ?_⟩
  · intro h1 h2
    rw [hc] at h1
    rw [hn] at h2
    rw [hl]
    simp [displayLabel, h1, h2]
  · intro h1
    rw [hc] at h1
    rw [hl]
    simp [displayLabel, h1]
  · intro h1 h2
    rw [hc] at h2
    rw [hc, hn] at h1
    have h3 : ¬(pyStrip (r.notes.getD "") ≠ "" ∧ effectiveConformance r = "Pass") :=
      fun h => h1 ⟨h.2, h.1⟩
    rw [hl, hc]
    simp [displayLabel, h3, h2]

/-- Claim C7, witness: a passing record with notes displays the asterisk
label. -/
theorem claim_C7_witness :
    (classifyCell ⟨some "Pass", none, some "note", none⟩).label = "Pass*" :=
  (claim_C7 ⟨some "Pass", none, some "note", none⟩).1 (by decide) (by decide)

/-- Claim C8: the detail table renders the groups in catalog order (its
fragments are the concatenation, over the catalog, of each group's
fragments); a group whose name-prefix filter selects no case contributes no
fragments at all; and each group's member list is the name-prefix filter of
the catalog sorted by name (sorted lexicographically, a permutation of the
filter). -/
theorem claim_C8 (fs : String → String → FileState CaseRecord)
    (tools : List TypeChecker) (test_cases : List TestCase) (cc : Nat)
    (gs : List (String × TestGroup)) (z : String → SummaryStats)
    (hm : ∀ n s, fs n s ≠ FileState.malformed) :
    runGroups fs tools test_cases cc gs ⟨[], z⟩ =
      Except.ok ⟨gs.flatMap (groupFrags fs tools test_cases cc),
        groupsStatsFold fs tools test_cases gs z⟩ ∧
    (∀ p : String × TestGroup,
      test_cases.filter (fun c => strStartsWith c.name (p.1 ++ "_")) = [] →
        groupFrags fs tools test_cases cc p = []) ∧
    (∀ p : String × TestGroup,
      List.Pairwise LeP (tests_in_group test_cases p.1) ∧
      (tests_in_group test_cases p.1).Perm
        (test_cases.filter (fun c => strStartsWith c.name (p.1 ++ "_")))) := by
  refine ⟨?_, ?_, ?_⟩
  · simpa using runGroups_eq fs tools test_cases cc hm gs ⟨[], z⟩
  · intro p hp
    have h0 : tests_in_group test_cases p.1 = [] := by
      rw [tests_in_group, hp]
      rfl
    simp [groupFrags, h0]
  · intro p
    exact ⟨sortByName_sorted _, sortByName_perm _⟩

/-- Claim C8, witness: a two-group catalog where the second group has no
member; the walk emits exactly the two groups' fragment lists in order. -/
theorem claim_C8_witness :
    runGroups (fun _ _ => FileState.missing) [⟨"t"⟩] [⟨"g_2", "g_2"⟩, ⟨"g_1", "g_1"⟩] 2
        [("g", ⟨"g", "#g"⟩), ("h", ⟨"h", "#h"⟩)] ⟨[], zeroStats⟩ =
      Except.ok ⟨([("g", ⟨"g", "#g"⟩), ("h", ⟨"h", "#h"⟩)] :
            List (String × TestGroup)).flatMap
          (groupFrags (fun _ _ => FileState.missing) [⟨"t"⟩]
            [⟨"g_2", "g_2"⟩, ⟨"g_1", "g_1"⟩] 2),
        groupsStatsFold (fun _ _ => FileState.missing) [⟨"t"⟩]
          [⟨"g_2", "g_2"⟩, ⟨"g_1", "g_1"⟩] [("g", ⟨"g", "#g"⟩), ("h", ⟨"h", "#h"⟩)]
          zeroStats⟩ :=
  (claim_C8 (fun _ _ => FileState.missing) [⟨"t"⟩] [⟨"g_2", "g_2"⟩, ⟨"g_1", "g_1"⟩] 2
    [("g", ⟨"g", "#g"⟩), ("h", ⟨"h", "#h"⟩)] zeroStats
    (fun _ _ h => FileState.noConfusion h)).1

/-- Claim C9, amended: a catalog case is loaded, classified and counted
once per group whose name followed by an underscore prefixes the case name
(so zero times when no group matches and several times when several match):
the final statistics of a tool are the fold of the per-record update over
the processed-case sequence, and the number of occurrences of a case in
that sequence equals the number of matching groups. -/
theorem claim_C9 (fs : String → String → FileState CaseRecord)
    (tools : List TypeChecker) (test_cases : List TestCase)
    (gs : List (String × TestGroup)) (cc : Nat) {t : TypeChecker} {c : TestCase}
    (hm : ∀ n s, fs n s ≠ FileState.malformed)
    (hnd : (tools.map TypeChecker.name).Nodup) (ht : t ∈ tools)
    (hcn : test_cases.Nodup) (hc : c ∈ test_cases) :
    statsOf (runGroups fs tools test_cases cc gs ⟨[], zeroStats⟩) t.name =
      (processedCases gs test_cases).foldl
        (fun a x => updateStats a (classifyCell (recordOf fs t.name x.stem)))
        ⟨0, 0, 0, 0⟩ ∧
    (processedCases gs test_cases).count c =
      (gs.filter (fun p => strStartsWith c.name (p.1 ++ "_"))).length := by
  constructor
  · rw [runGroups_eq fs tools test_cases cc hm gs]
    show groupsStatsFold fs tools test_cases gs zeroStats t.name = _
    rw [groupsStatsFold_eq fs tools test_cases gs zeroStats,
        casesStatsFold_proj fs tools hnd ht (processedCases gs test_cases) zeroStats]
    rfl
  · exact count_processedCases test_cases hcn hc gs

/-- Claim C9, witness: a case matching its single group once is counted
once. -/
theorem claim_C9_witness :
    (processedCases [("g", ⟨"g", "#g"⟩)] [⟨"g_1", "g_1"⟩, ⟨"g_2", "g_2"⟩]).count
        (⟨"g_1", "g_1"⟩ : TestCase) =
      (([("g", ⟨"g", "#g"⟩)] : List (String × TestGroup)).filter
        (fun p => strStartsWith "g_1" (p.1 ++ "_"))).length :=
  (claim_C9 (fun _ _ => FileState.missing) [⟨"t"⟩] [⟨"g_1", "g_1"⟩, ⟨"g_2", "g_2"⟩]
    [("g", ⟨"g", "#g"⟩)] 2 (fun _ _ h => FileState.noConfusion h) (by decide)
    (List.mem_singleton.mpr rfl) (by decide) (by decide)).2

/-- Claim C9, counterexample to the claim as stated: the case named a_b_c
matches both the group named a and the group named a_b, so with one tool
and all result files missing its partial counter ends at 2, not 1; and a
case named x matching no group is never processed, leaving every counter at
0 although one processed case would have contributed 1. -/
theorem claim_C9_cex :
    statsOf (runGroups (fun _ _ => FileState.missing) [⟨"t"⟩] [⟨"a_b_c", "a_b_c"⟩] 2
      [("a", ⟨"a", "#a"⟩), ("a_b", ⟨"a_b", "#b"⟩)] ⟨[], zeroStats⟩) "t" = ⟨0, 2, 0, 0⟩ ∧
    statsOf (runGroups (fun _ _ => FileState.missing) [⟨"t"⟩] [⟨"x", "x"⟩] 2
      [("g", ⟨"g", "#g"⟩)] ⟨[], zeroStats⟩) "t" = ⟨0, 0, 0, 0⟩ :=
  ⟨by decide, by decide⟩

/-- Claim C10, amended: no character escaping is applied anywhere, but
newlines are not preserved verbatim: the version string appears unchanged
in its header cell, and every newline-split segment of the trimmed notes
and of the trimmed errors_diff (in particular any segment holding markup
characters) appears unchanged inside the cell HTML, while the newlines
themselves become paragraph boundaries (notes) or break tags
(errors_diff). -/
theorem claim_C10 (r : CaseRecord) (v : String) :
    strIn v (headerFrag v) ∧
    (∀ ln ∈ pySplitNl (classifyCell r).raw_notes,
      (classifyCell r).raw_notes ≠ "" → strIn ln (classifyCell r).cellHtml) ∧
    (∀ ln ∈ pySplitNl (classifyCell r).raw_errors_diff,
      (classifyCell r).raw_errors_diff ≠ "" → strIn ln (classifyCell r).cellHtml) := by
  refine ⟨⟨"<th class='tc-header'><div class='tc-name'>", "</div>", rfl⟩, ?_, ?_⟩
  · intro ln hln hne
    rw [classifyCell_raw_notes] at hln hne
    rw [classifyCell_cellHtml, cellHtmlOf]
    have hexp : expanderOf (pyStrip (r.notes.getD ""))
        (pyStrip (r.errors_diff.getD "")) ≠ "" := by
      rw [expanderOf, if_pos hne]
      exact append_ne_empty_left _ _ (append_ne_empty_left _ _
        (append_ne_empty_left _ _ (by decide)))
    rw [if_pos hexp]
    refine strIn_append_left _ (strIn_append_right _ ?_)
    rw [expanderOf, if_pos hne]
    refine strIn_append_left _ (strIn_append_left _ (strIn_append_right _ ?_))
    rw [notesHtmlOf]
    exact strIn_concat_map _ hln ⟨"<p>", "</p>", rfl⟩
  · intro ln hln hne
    rw [classifyCell_raw_errors] at hln hne
    rw [classifyCell_cellHtml, cellHtmlOf]
    have hexp : expanderOf (pyStrip (r.notes.getD ""))
        (pyStrip (r.errors_diff.getD "")) ≠ "" := by
      rw [expanderOf, if_pos hne]
      exact append_ne_empty_right _ _ (append_ne_empty_left _ _
        (append_ne_empty_left _ _ (by decide)))
    rw [if_pos hexp]
    refine strIn_append_left _ (strIn_append_right _ ?_)
    rw [expanderOf, if_pos hne]
    refine strIn_append_right _ (strIn_append_left _ (strIn_append_right _ ?_))
    rw [pyReplaceNl]
    exact strIn_joinSep _ hln

/-- Claim C10, witness: the markup-bearing notes segment appears verbatim
inside its cell HTML. -/
theorem claim_C10_witness :
    strIn "a<&" (classifyCell ⟨none, none, some "a<&", none⟩).cellHtml :=
  (claim_C10 ⟨none, none, some "a<&", none⟩ "v").2.1 "a<&" (by decide) (by decide)

set_option maxRecDepth 1000000 in
/-- Claim C10, counterexample to the claim as stated: a record whose notes
field is the two-line text a-less-amp newline b has non-empty trimmed
notes, yet that text does not appear unchanged anywhere in the produced
document; it was inserted with its newline turned into a paragraph
boundary. -/
theorem claim_C10_cex :
    pyStrip "a<&\nb" = "a<&\nb" ∧
    strContains (htmlOutput (generate_summary_html (fun _ => FileState.parsed ⟨some "v1"⟩)
      (fun _ _ => FileState.parsed ⟨none, none, some "a<&\nb", none⟩) [⟨"t"⟩]
      [("g", ⟨"g", "#g"⟩)] [⟨"g_1", "g_1"⟩])) "a<&\nb" = false ∧
    strContains (htmlOutput (generate_summary_html (fun _ => FileState.parsed ⟨some "v1"⟩)
      (fun _ _ => FileState.parsed ⟨none, none, some "a<&\nb", none⟩) [⟨"t"⟩]
      [("g", ⟨"g", "#g"⟩)] [⟨"g_1", "g_1"⟩])) "<p>a<&</p><p>b</p>" = true :=
  ⟨by decide, by decide, by decide⟩

end ConformanceReport
